import Mathlib

set_option maxHeartbeats 1000000

/-! Shallow embedding of the Wasabistotage file-relay core: the relational
state and queries of database.py, the upload-strategy selection and
multipart loop of wasabi_storage.py, and the access-link handlers of
bot.py. Timestamps are modelled as natural numbers; the SQL
CURRENT_TIMESTAMP becomes an explicit `now` argument. -/

/-- A row of the files table (database.py, create_tables). -/
structure FileRecord where
  file_id : String
  telegram_file_id : Option String
  wasabi_key : String
  original_name : String
  file_size : Nat
  mime_type : Option String
  uploader_id : Int
  uploader_username : Option String
  upload_date : Nat
  download_count : Nat
  is_public : Bool
  description : String
  tags : List String
deriving DecidableEq

/-- A row of the download_links table (database.py, create_tables). -/
structure DownloadLink where
  link_id : String
  file_id : String
  created_at : Nat
  expires_at : Option Nat
  access_count : Nat
  max_access : Int
  created_by : Int
deriving DecidableEq

/-- A row of the users table (database.py, create_tables). -/
structure UserRow where
  user_id : Int
  username : Option String
  first_name : Option String
  last_name : Option String
  is_premium : Bool
  storage_used : Nat
  storage_limit : Nat
  joined_date : Nat
  last_active : Nat
deriving DecidableEq

/-- The relational state owned by database.py (shared_files is not touched
by any operation modelled here). -/
structure Database where
  files : List FileRecord
  users : List UserRow
  download_links : List DownloadLink
deriving DecidableEq

/-- The dict handed to Database.save_file by the upload handlers. -/
structure FileData where
  file_id : String
  telegram_file_id : Option String
  wasabi_key : String
  original_name : String
  file_size : Nat
  mime_type : Option String
  uploader_id : Int
  uploader_username : Option String
  description : String
  tags : List String
deriving DecidableEq

/-- The dict handed to Database.save_user. -/
structure UserData where
  user_id : Int
  username : Option String
  first_name : Option String
  last_name : Option String
deriving DecidableEq

/-- Database.get_file: SELECT * FROM files WHERE file_id = $1. -/
def Database.get_file (db : Database) (fid : String) : Option FileRecord :=
  db.files.find? (fun f => f.file_id == fid)

/-- Database.save_file: INSERT INTO files (file_id, telegram_file_id,
wasabi_key, original_name, file_size, mime_type, uploader_id,
uploader_username, description, tags, metadata). The is_public column is
not in the column list, so the row takes the schema default true;
download_count defaults to 0 and upload_date to CURRENT_TIMESTAMP. -/
def Database.save_file (db : Database) (now : Nat) (d : FileData) : Database × String :=
  ({ db with files := db.files ++ [{
      file_id := d.file_id
      telegram_file_id := d.telegram_file_id
      wasabi_key := d.wasabi_key
      original_name := d.original_name
      file_size := d.file_size
      mime_type := d.mime_type
      uploader_id := d.uploader_id
      uploader_username := d.uploader_username
      upload_date := now
      download_count := 0
      is_public := true
      description := d.description
      tags := d.tags }] },
   d.file_id)

/-- Database.increment_download_count: UPDATE files SET download_count =
download_count + 1 WHERE file_id = $1. -/
def Database.increment_download_count (db : Database) (fid : String) : Database :=
  { db with files := db.files.map (fun f =>
      if f.file_id == fid then { f with download_count := f.download_count + 1 } else f) }

/-- The DO UPDATE arm of Database.save_user: only the display fields and
the last-active timestamp change. -/
def updatedUserRow (d : UserData) (now : Nat) (u : UserRow) : UserRow :=
  { u with username := d.username, first_name := d.first_name,
           last_name := d.last_name, last_active := now }

/-- The INSERT arm of Database.save_user: columns absent from the INSERT
take the schema defaults of the users table. -/
def freshUserRow (d : UserData) (now : Nat) : UserRow where
  user_id := d.user_id
  username := d.username
  first_name := d.first_name
  last_name := d.last_name
  is_premium := false
  storage_used := 0
  storage_limit := 2147483648
  joined_date := now
  last_active := now

/-- Database.save_user: INSERT INTO users (user_id, username, first_name,
last_name) VALUES ... ON CONFLICT (user_id) DO UPDATE SET username,
first_name, last_name, last_active = CURRENT_TIMESTAMP. -/
def Database.save_user (db : Database) (now : Nat) (d : UserData) : Database :=
  if db.users.any (fun u => u.user_id == d.user_id) then
    { db with users := db.users.map (fun u =>
        if u.user_id == d.user_id then updatedUserRow d now u else u) }
  else
    { db with users := db.users ++ [freshUserRow d now] }

/-- The WHERE conditions of Database.get_file_by_download_link that gate a
download link: (expires_at IS NULL OR expires_at > CURRENT_TIMESTAMP) AND
(max_access = -1 OR access_count < max_access). -/
def DownloadLink.eligible (dl : DownloadLink) (now : Nat) : Bool :=
  (match dl.expires_at with
   | none => true
   | some t => decide (now < t))
  && (dl.max_access == -1 || decide ((dl.access_count : Int) < dl.max_access))

/-- Database.get_file_by_download_link: SELECT f.*, dl.access_count,
dl.max_access, dl.expires_at FROM files f JOIN download_links dl ON
f.file_id = dl.file_id WHERE dl.link_id = $1 AND the eligibility
conditions. The joined row is modelled as the pair of the file row and
the link row. -/
def Database.get_file_by_download_link (db : Database) (now : Nat) (lid : String) :
    Option (FileRecord × DownloadLink) :=
  match db.download_links.find? (fun dl => dl.link_id == lid) with
  | none => none
  | some dl =>
    match db.files.find? (fun f => f.file_id == dl.file_id) with
    | none => none
    | some f => if dl.eligible now then some (f, dl) else none

/-- Database.increment_link_access: UPDATE download_links SET access_count =
access_count + 1 WHERE link_id = $1. -/
def Database.increment_link_access (db : Database) (lid : String) : Database :=
  { db with download_links := db.download_links.map (fun dl =>
      if dl.link_id == lid then { dl with access_count := dl.access_count + 1 } else dl) }

/-- The `if user_id:` guard in Database.search_files: Python truthiness
treats both None and 0 as absent. -/
def userIdTruthy : Option Int → Bool
  | none => false
  | some u => u != 0

/-- The ILIKE test `original_name ILIKE %query%` for a query without SQL
wildcard characters: the lower-cased query occurs as a contiguous
subsequence of the lower-cased name. -/
def containsIgnoreCase (name query : String) : Bool :=
  (name.data.map Char.toLower).tails.any (fun t => (query.data.map Char.toLower).isPrefixOf t)

/-- The query part of both SQL branches of Database.search_files:
original_name ILIKE %query% OR query = ANY(tags). -/
def fileMatchesQuery (query : String) (f : FileRecord) : Bool :=
  containsIgnoreCase f.original_name query || f.tags.contains query

/-- The full WHERE clause of Database.search_files: with a truthy caller
identity, (uploader_id = $1 OR is_public) AND the query part; otherwise
is_public AND the query part. -/
def search_eligible (query : String) (user_id : Option Int) (f : FileRecord) : Bool :=
  (if userIdTruthy user_id then f.uploader_id == user_id.getD 0 || f.is_public
   else f.is_public)
  && fileMatchesQuery query f

/-- Insertion step for ORDER BY upload_date DESC. -/
def insertByDateDesc (f : FileRecord) : List FileRecord → List FileRecord
  | [] => [f]
  | g :: gs => if g.upload_date ≤ f.upload_date then f :: g :: gs else g :: insertByDateDesc f gs

/-- ORDER BY upload_date DESC, modelled as an insertion sort. -/
def sortByDateDesc (l : List FileRecord) : List FileRecord :=
  l.foldr insertByDateDesc []

/-- Database.search_files: WHERE clause, then ORDER BY upload_date DESC,
then LIMIT. -/
def Database.search_files (db : Database) (query : String) (user_id : Option Int)
    (limit : Nat) : List FileRecord :=
  (sortByDateDesc (db.files.filter (search_eligible query user_id))).take limit

/-- The filter of the claim as the spec words it: (caller is the uploader
OR the record is public) AND (name contains the query case-insensitively
OR the query equals one tag); with no caller identity, public only. -/
def spec_search_eligible (query : String) (user_id : Option Int) (f : FileRecord) : Bool :=
  (match user_id with
   | some u => f.uploader_id == u || f.is_public
   | none => f.is_public)
  && (containsIgnoreCase f.original_name query || f.tags.contains query)

/-! Object store client (wasabi_storage.py). The boto3 URL calls are
modelled as opaque string constructors determined by their arguments. -/

/-- The 100 MiB chunk size of WasabiStorage.multipart_upload and the
single/multipart threshold of WasabiStorage.upload_file. -/
def CHUNK_SIZE : Nat := 100 * 1024 * 1024

inductive UploadStrategy where
  | single
  | multipart
deriving DecidableEq

/-- The size test of WasabiStorage.upload_file: multipart for sizes
strictly above 100 MiB, single-shot otherwise. -/
def WasabiStorage.choose_strategy (file_size : Nat) : UploadStrategy :=
  if file_size > 100 * 1024 * 1024 then .multipart else .single

/-- Number of chunks the multipart read loop performs for a given size. -/
def numParts (size : Nat) : Nat := (size + CHUNK_SIZE - 1) / CHUNK_SIZE

/-- The read loop of WasabiStorage.multipart_upload. Each iteration reads
min(CHUNK_SIZE, remaining) bytes, uploads them as part number pn, appends
(PartNumber, byte count) to the parts list, and reports the cumulative
uploaded byte count to the progress callback. The fuel argument only
bounds the number of iterations; numParts size iterations suffice. -/
def multipartLoop : Nat → Nat → Nat → Nat → List (Nat × Nat) × List Nat
  | 0, _, _, _ => ([], [])
  | fuel + 1, pn, uploaded, size =>
    if size = 0 then ([], [])
    else
      let c := min CHUNK_SIZE size
      let rest := multipartLoop fuel (pn + 1) (uploaded + c) (size - c)
      ((pn, c) :: rest.1, (uploaded + c) :: rest.2)

/-- WasabiStorage.multipart_upload on a file of the given size: the
completion list of (PartNumber, byte count) pairs and the sequence of
progress reports. -/
def WasabiStorage.multipart_upload (size : Nat) : List (Nat × Nat) × List Nat :=
  multipartLoop (numParts size) 1 0 size

/-- Running cumulative sums starting from an initial byte count. -/
def cumFrom : Nat → List Nat → List Nat
  | _, [] => []
  | a, x :: xs => (a + x) :: cumFrom (a + x) xs

/-! Failure model for the upload path (wasabi_storage.upload_file and
bot.process_file_upload). A FailSpec says which object-store calls raise;
runs return the outcome plus the trace of store calls attempted. -/

inductive StoreEv where
  | createMultipart
  | uploadPart (pn : Nat)
  | completeMultipart
  | abortMultipart
  | putObject
deriving DecidableEq

/-- The part-upload loop of WasabiStorage.multipart_upload under a failure
oracle: uploads parts in order until done or a part raises; an error
carries the trace of parts attempted up to and including the failing one. -/
def partLoopRun (fails : StoreEv → Bool) : Nat → Nat → Nat → Except (List StoreEv) (List StoreEv)
  | 0, _, _ => .ok []
  | fuel + 1, pn, size =>
    if size = 0 then .ok []
    else if fails (.uploadPart pn) then .error [.uploadPart pn]
    else
      let c := min CHUNK_SIZE size
      match partLoopRun fails fuel (pn + 1) (size - c) with
      | .error tr => .error (.uploadPart pn :: tr)
      | .ok tr => .ok (.uploadPart pn :: tr)

/-- WasabiStorage.multipart_upload under a failure oracle. A failure of
create_multipart_upload raises before the try block, so no abort happens;
any exception inside the try block (a part upload or the completion call)
triggers abort_multipart_upload and then re-raises. -/
def WasabiStorage.multipart_upload_run (fails : StoreEv → Bool) (size : Nat) :
    Except (List StoreEv) (List StoreEv) :=
  if fails .createMultipart then .error [.createMultipart]
  else
    match partLoopRun fails (numParts size) 1 size with
    | .error tr => .error (.createMultipart :: tr ++ [.abortMultipart])
    | .ok tr =>
      if fails .completeMultipart then
        .error (.createMultipart :: tr ++ [.completeMultipart, .abortMultipart])
      else .ok (.createMultipart :: tr ++ [.completeMultipart])

/-- WasabiStorage.upload_file under a failure oracle: picks the strategy by
size; its try/except converts any exception from either strategy into the
return value False. -/
def WasabiStorage.upload_file_run (fails : StoreEv → Bool) (size : Nat) : Bool × List StoreEv :=
  if size > 100 * 1024 * 1024 then
    match WasabiStorage.multipart_upload_run fails size with
    | .ok tr => (true, tr)
    | .error tr => (false, tr)
  else
    if fails .putObject then (false, [.putObject]) else (true, [.putObject])

inductive BotEv where
  | store (e : StoreEv)
  | save_file_row
deriving DecidableEq

/-- The persistence decision of bot.process_file_upload: db.save_file runs
only in the branch where storage.upload_file returned True. -/
def TelegramFileBot.process_file_upload_run (fails : StoreEv → Bool) (size : Nat) :
    Bool × List BotEv :=
  let r := WasabiStorage.upload_file_run fails size
  (r.1, r.2.map BotEv.store ++ (if r.1 then [BotEv.save_file_row] else []))

/-! URL derivation (wasabi_storage.py). -/

/-- Models the boto3 presigned GET URL of
WasabiStorage.generate_presigned_url as an opaque string determined by
the key, the expiration, and the optional content disposition. -/
def WasabiStorage.generate_presigned_url (key : String) (expiration : Nat)
    (dispo : Option String) : String :=
  "presigned/" ++ toString expiration ++ "/" ++ key ++
    (match dispo with
     | none => ""
     | some d => "?response-content-disposition=" ++ d)

/-- Models the boto3 presigned streaming GET URL of
WasabiStorage.generate_streaming_url. -/
def WasabiStorage.generate_streaming_url (key : String) (expiration : Nat) : String :=
  "streaming/" ++ toString expiration ++ "/" ++ key

/-- WasabiStorage.get_mx_player_url: wraps a 24-hour streaming URL in the
MX Player intent scheme. -/
def WasabiStorage.get_mx_player_url (key : String) (filename : String) : String :=
  "intent:" ++ WasabiStorage.generate_streaming_url key 86400 ++
    "#Intent;package=com.mxtech.videoplayer.ad;end"

/-- WasabiStorage.get_vlc_url: wraps a 24-hour streaming URL in the VLC
scheme. -/
def WasabiStorage.get_vlc_url (key : String) : String :=
  "vlc://" ++ WasabiStorage.generate_streaming_url key 86400

/-! Access-link handlers (bot.py). Replies are modelled as a result sum
type; the download handler also returns the updated database state. -/

inductive AccessResult where
  | url (u : String)
  | denied
  | notFound
  | notStreamable
deriving DecidableEq

/-- bot.generate_download_link: NotFound when get_file misses; Denied when
the requester is not the uploader and the file is not public; otherwise a
presigned URL with an attachment disposition, plus the
increment_download_count side effect. -/
def TelegramFileBot.generate_download_link (db : Database) (requester : Int)
    (fid : String) : AccessResult × Database :=
  match db.get_file fid with
  | none => (.notFound, db)
  | some f =>
    if f.uploader_id != requester && !f.is_public then (.denied, db)
    else
      (.url (WasabiStorage.generate_presigned_url f.wasabi_key 3600
        (some ("attachment; filename=\"" ++ f.original_name ++ "\""))),
       db.increment_download_count fid)

/-- Python str.startswith, on the character lists of the two strings. -/
def pyStartswith (s pre : String) : Bool :=
  pre.data.isPrefixOf s.data

/-- The streamability guard of bot.generate_streaming_link:
`not file_data[mime_type] or not (startswith video/ or audio/)` negated.
Python truthiness makes both None and the empty string fail the guard. -/
def streamable_mime (m : Option String) : Bool :=
  match m with
  | none => false
  | some s => !s.data.isEmpty && (pyStartswith s "video/" || pyStartswith s "audio/")

/-- bot.generate_streaming_link: NotFound when get_file misses;
NotStreamable unless the MIME type is video/* or audio/*; otherwise a
24-hour streaming URL. No ownership or visibility check is performed. -/
def TelegramFileBot.generate_streaming_link (db : Database) (fid : String) : AccessResult :=
  match db.get_file fid with
  | none => .notFound
  | some f =>
    if streamable_mime f.mime_type then
      .url (WasabiStorage.generate_streaming_url f.wasabi_key 86400)
    else .notStreamable

/-- bot.generate_mx_link: NotFound when get_file misses; otherwise the MX
Player intent URL. No ownership, visibility, or MIME check is performed. -/
def TelegramFileBot.generate_mx_link (db : Database) (fid : String) : AccessResult :=
  match db.get_file fid with
  | none => .notFound
  | some f => .url (WasabiStorage.get_mx_player_url f.wasabi_key f.original_name)

/-- bot.generate_vlc_link: NotFound when get_file misses; otherwise the VLC
URL. No ownership, visibility, or MIME check is performed. -/
def TelegramFileBot.generate_vlc_link (db : Database) (fid : String) : AccessResult :=
  match db.get_file fid with
  | none => .notFound
  | some f => .url (WasabiStorage.get_vlc_url f.wasabi_key)

/-! Temp-file lifecycle of bot.process_file_upload. The handler creates a
NamedTemporaryFile with delete=False, downloads into it, uploads, and
calls os.unlink(temp_path) as the last statement inside the try block;
the except handler edits the status message but does not unlink. -/

inductive ReplyKind where
  | success
  | failed
  | uploadError
deriving DecidableEq

/-- Outcome of one run of bot.process_file_upload: which reply was sent and
whether the temporary file still exists on disk afterwards. -/
structure UploadExit where
  reply : ReplyKind
  temp_file_exists : Bool
deriving DecidableEq

/-- Control-flow skeleton of bot.process_file_upload (lines 266 to 329)
over an oracle of which awaited steps raise: the Telegram download and
the db.save_file call. storage.upload_file never raises (it returns a
Bool), so its outcome is the upload_ok flag. os.unlink(temp_path) is
executed only when the try block runs to its end. -/
def TelegramFileBot.process_file_upload_exit (download_raises upload_ok save_raises : Bool) :
    UploadExit :=
  if download_raises then { reply := .uploadError, temp_file_exists := true }
  else if upload_ok then
    if save_raises then { reply := .uploadError, temp_file_exists := true }
    else { reply := .success, temp_file_exists := false }
  else { reply := .failed, temp_file_exists := false }

/-! Concrete sample data for evaluating the operations on closed inputs. -/

/-- A public video file, as produced by the upload path. -/
def sampleVideoFile : FileRecord where
  file_id := "f1"
  telegram_file_id := some "tg1"
  wasabi_key := "files/f1/a.mp4"
  original_name := "a.mp4"
  file_size := 10
  mime_type := some "video/mp4"
  uploader_id := 7
  uploader_username := some "ann"
  upload_date := 1
  download_count := 0
  is_public := true
  description := ""
  tags := ["video"]

/-- A private video file owned by user 7. -/
def samplePrivateFile : FileRecord where
  file_id := "f2"
  telegram_file_id := none
  wasabi_key := "files/f2/b.mp4"
  original_name := "b.mp4"
  file_size := 20
  mime_type := some "video/mp4"
  uploader_id := 7
  uploader_username := some "ann"
  upload_date := 2
  download_count := 0
  is_public := false
  description := ""
  tags := []

/-- A public PDF file. -/
def samplePdfFile : FileRecord where
  file_id := "f3"
  telegram_file_id := none
  wasabi_key := "files/f3/c.pdf"
  original_name := "c.pdf"
  file_size := 30
  mime_type := some "application/pdf"
  uploader_id := 8
  uploader_username := none
  upload_date := 3
  download_count := 5
  is_public := true
  description := ""
  tags := []

/-- A download link for f1 with max_access = 1 and no expiration. -/
def sampleOneShotLink : DownloadLink where
  link_id := "L1"
  file_id := "f1"
  created_at := 0
  expires_at := none
  access_count := 0
  max_access := 1
  created_by := 7

/-- An unlimited download link for f1 already past its expiration at time 5. -/
def sampleExpiredLink : DownloadLink where
  link_id := "L2"
  file_id := "f1"
  created_at := 0
  expires_at := some 4
  access_count := 0
  max_access := -1
  created_by := 7

/-- Database state holding the three sample files and the two links. -/
def sampleDb : Database where
  files := [sampleVideoFile, samplePrivateFile, samplePdfFile]
  users := []
  download_links := [sampleOneShotLink, sampleExpiredLink]

/-- Older public file matching the query letter a. -/
def c7FileOld : FileRecord where
  file_id := "s1"
  telegram_file_id := none
  wasabi_key := "files/s1/alpha"
  original_name := "alpha"
  file_size := 1
  mime_type := none
  uploader_id := 3
  uploader_username := none
  upload_date := 1
  download_count := 0
  is_public := true
  description := ""
  tags := []

/-- Newer public file also matching the query letter a. -/
def c7FileNew : FileRecord where
  file_id := "s2"
  telegram_file_id := none
  wasabi_key := "files/s2/album"
  original_name := "album"
  file_size := 1
  mime_type := none
  uploader_id := 3
  uploader_username := none
  upload_date := 2
  download_count := 0
  is_public := true
  description := ""
  tags := []

/-- Database with two public files, both matching the query letter a. -/
def c7Db : Database where
  files := [c7FileOld, c7FileNew]
  users := []
  download_links := []

/-- A private file whose uploader identity is the Python-falsy 0. -/
def c7ZeroFile : FileRecord where
  file_id := "z1"
  telegram_file_id := none
  wasabi_key := "files/z1/alpha0"
  original_name := "alpha0"
  file_size := 1
  mime_type := none
  uploader_id := 0
  uploader_username := none
  upload_date := 1
  download_count := 0
  is_public := false
  description := ""
  tags := []

/-- Database holding only the private file uploaded by identity 0. -/
def c7ZeroDb : Database where
  files := [c7ZeroFile]
  users := []
  download_links := []

/-- An existing user row with nondefault premium flag, counters and join
time. -/
def c10User : UserRow where
  user_id := 7
  username := some "oldname"
  first_name := none
  last_name := none
  is_premium := true
  storage_used := 55
  storage_limit := 999
  joined_date := 3
  last_active := 3

/-- Database holding only c10User. -/
def c10Db : Database where
  files := []
  users := [c10User]
  download_links := []

/-- An upsert payload for the same identity with fresh display fields. -/
def c10Data : UserData where
  user_id := 7
  username := some "newname"
  first_name := some "Ann"
  last_name := none

/-- Failure oracle under which only the second part upload raises. -/
def failsPartTwo : StoreEv → Bool := fun e => e == .uploadPart 2

/-- A fresh upload payload for the save_file witness. -/
def c9NewFileData : FileData where
  file_id := "s9"
  telegram_file_id := none
  wasabi_key := "files/s9/x"
  original_name := "x"
  file_size := 1
  mime_type := none
  uploader_id := 3
  uploader_username := none
  description := ""
  tags := []

/-! Helper lemmas. -/

/-- find? on the download-count update: the first row matching the file id
is the updated version of the first match before the update. -/
theorem find?_increment_file (files : List FileRecord) (fid : String) :
    (files.map (fun f =>
        if f.file_id == fid then { f with download_count := f.download_count + 1 } else f)).find?
        (fun f => f.file_id == fid)
      = (files.find? (fun f => f.file_id == fid)).map
          (fun f => { f with download_count := f.download_count + 1 }) := by
  induction files with
  | nil => rfl
  | cons a l ih =>
    simp only [List.map_cons]
    cases hb : a.file_id == fid with
    | true =>
      rw [if_pos rfl]
      have hb2 : (({ a with download_count := a.download_count + 1 } : FileRecord).file_id
          == fid) = true := hb
      simp only [List.find?_cons]
      rw [hb2]
      rfl
    | false =>
      rw [if_neg (fun hc => Bool.false_ne_true hc)]
      simp only [List.find?_cons]
      rw [hb]
      exact ih

/-- find? on the access-count update: the first row matching the link id is
the updated version of the first match before the update. -/
theorem find?_increment_link (links : List DownloadLink) (lid : String) :
    (links.map (fun dl =>
        if dl.link_id == lid then { dl with access_count := dl.access_count + 1 } else dl)).find?
        (fun dl => dl.link_id == lid)
      = (links.find? (fun dl => dl.link_id == lid)).map
          (fun dl => { dl with access_count := dl.access_count + 1 }) := by
  induction links with
  | nil => rfl
  | cons a l ih =>
    simp only [List.map_cons]
    cases hb : a.link_id == lid with
    | true =>
      rw [if_pos rfl]
      have hb2 : (({ a with access_count := a.access_count + 1 } : DownloadLink).link_id
          == lid) = true := hb
      simp only [List.find?_cons]
      rw [hb2]
      rfl
    | false =>
      rw [if_neg (fun hc => Bool.false_ne_true hc)]
      simp only [List.find?_cons]
      rw [hb]
      exact ih

theorem insertByDateDesc_perm (f : FileRecord) (l : List FileRecord) :
    (insertByDateDesc f l).Perm (f :: l) := by
  induction l with
  | nil => exact List.Perm.refl _
  | cons g gs ih =>
    simp only [insertByDateDesc]
    split
    · exact List.Perm.refl _
    · exact (ih.cons g).trans (List.Perm.swap f g gs)

theorem sortByDateDesc_perm (l : List FileRecord) : (sortByDateDesc l).Perm l := by
  induction l with
  | nil => exact List.Perm.refl _
  | cons f gs ih => exact (insertByDateDesc_perm f (sortByDateDesc gs)).trans (ih.cons f)

/-- Inserting into a newest-first list keeps it newest-first. -/
theorem insertByDateDesc_pairwise (f : FileRecord) (l : List FileRecord)
    (hl : l.Pairwise (fun a b => b.upload_date ≤ a.upload_date)) :
    (insertByDateDesc f l).Pairwise (fun a b => b.upload_date ≤ a.upload_date) := by
  induction l with
  | nil => simp [insertByDateDesc]
  | cons g gs ih =>
    rcases List.pairwise_cons.mp hl with ⟨hg, hgs⟩
    simp only [insertByDateDesc]
    by_cases h : g.upload_date ≤ f.upload_date
    · rw [if_pos h]
      refine List.pairwise_cons.mpr ⟨?_, hl⟩
      intro x hx
      rcases List.mem_cons.mp hx with rfl | hx2
      · exact h
      · exact le_trans (hg x hx2) h
    · rw [if_neg h]
      refine List.pairwise_cons.mpr ⟨?_, ih hgs⟩
      intro x hx
      have hmem := (insertByDateDesc_perm f gs).mem_iff.mp hx
      rcases List.mem_cons.mp hmem with rfl | hx2
      · omega
      · exact hg x hx2

/-- The date sort produces a newest-first list. -/
theorem sortByDateDesc_pairwise (l : List FileRecord) :
    (sortByDateDesc l).Pairwise (fun a b => b.upload_date ≤ a.upload_date) := by
  induction l with
  | nil => simp [sortByDateDesc]
  | cons f gs ih => exact insertByDateDesc_pairwise f (sortByDateDesc gs) ih

theorem multipartLoop_size_zero (fuel pn up : Nat) : multipartLoop fuel pn up 0 = ([], []) := by
  cases fuel <;> simp [multipartLoop]

/-- The part numbers produced by the multipart read loop are consecutive
starting from the initial part number. -/
theorem multipartLoop_map_fst (fuel : Nat) : ∀ pn up size,
    (multipartLoop fuel pn up size).1.map Prod.fst =
      List.range' pn (multipartLoop fuel pn up size).1.length := by
  induction fuel with
  | zero => intro pn up size; simp [multipartLoop]
  | succ fuel ih =>
    intro pn up size
    by_cases h : size = 0
    · subst h; simp [multipartLoop]
    · simp only [multipartLoop, if_neg h, List.map_cons, List.length_cons, List.range'_succ]
      exact congrArg (pn :: ·) (ih (pn + 1) _ _)

/-- The chunk sizes produced by the multipart read loop sum to the file
size, provided the fuel covers the whole file. -/
theorem multipartLoop_sum (fuel : Nat) : ∀ pn up size, size ≤ fuel * CHUNK_SIZE →
    ((multipartLoop fuel pn up size).1.map Prod.snd).sum = size := by
  induction fuel with
  | zero =>
    intro pn up size h
    have : size = 0 := by omega
    subst this; simp [multipartLoop]
  | succ fuel ih =>
    intro pn up size h
    by_cases h0 : size = 0
    · subst h0; simp [multipartLoop]
    · have hchunk : 0 < CHUNK_SIZE := by norm_num [CHUNK_SIZE]
      have hrec : size - min CHUNK_SIZE size ≤ fuel * CHUNK_SIZE := by
        rcases Nat.le_total size CHUNK_SIZE with hs | hs
        · rw [Nat.min_eq_right hs]; omega
        · rw [Nat.min_eq_left hs]
          have : (fuel + 1) * CHUNK_SIZE = fuel * CHUNK_SIZE + CHUNK_SIZE := by ring
          omega
      simp only [multipartLoop, if_neg h0, List.map_cons, List.sum_cons]
      rw [ih _ _ _ hrec]
      exact Nat.add_sub_cancel' (Nat.min_le_right _ _)

/-- Every chunk the multipart read loop uploads is between 1 byte and
CHUNK_SIZE bytes. -/
theorem multipartLoop_snd_bounds (fuel : Nat) : ∀ pn up size pc,
    pc ∈ (multipartLoop fuel pn up size).1 → 1 ≤ pc.2 ∧ pc.2 ≤ CHUNK_SIZE := by
  induction fuel with
  | zero => intro pn up size pc hm; simp [multipartLoop] at hm
  | succ fuel ih =>
    intro pn up size pc hm
    by_cases h0 : size = 0
    · subst h0; simp [multipartLoop] at hm
    · simp only [multipartLoop, if_neg h0, List.mem_cons] at hm
      rcases hm with rfl | hm
      · refine ⟨?_, Nat.min_le_left _ _⟩
        have hchunk : 0 < CHUNK_SIZE := by norm_num [CHUNK_SIZE]
        have : 0 < size := Nat.pos_of_ne_zero h0
        exact Nat.le_min.mpr ⟨hchunk, this⟩
      · exact ih _ _ _ _ hm

/-- Every chunk except possibly the last is exactly CHUNK_SIZE. -/
theorem multipartLoop_dropLast_chunk (fuel : Nat) : ∀ pn up size pc,
    pc ∈ ((multipartLoop fuel pn up size).1).dropLast → pc.2 = CHUNK_SIZE := by
  induction fuel with
  | zero => intro pn up size pc hm; simp [multipartLoop] at hm
  | succ fuel ih =>
    intro pn up size pc hm
    by_cases h0 : size = 0
    · subst h0; simp [multipartLoop] at hm
    · simp only [multipartLoop, if_neg h0] at hm
      cases hrest : (multipartLoop fuel (pn + 1) (up + min CHUNK_SIZE size)
          (size - min CHUNK_SIZE size)).1 with
      | nil => rw [hrest] at hm; simp at hm
      | cons b bl =>
        rw [hrest] at hm
        rw [List.dropLast_cons₂] at hm
        rcases List.mem_cons.mp hm with rfl | hm2
        · have hne : size - min CHUNK_SIZE size ≠ 0 := by
            intro hz
            rw [hz, multipartLoop_size_zero] at hrest
            exact List.noConfusion hrest
          rcases Nat.le_total size CHUNK_SIZE with hs | hs
          · rw [Nat.min_eq_right hs] at hne; omega
          · exact Nat.min_eq_left hs
        · exact ih _ _ _ _ (hrest ▸ hm2)

/-- The progress reports of the multipart read loop are the running
cumulative sums of the chunk sizes, starting from the bytes already
uploaded. -/
theorem multipartLoop_reports (fuel : Nat) : ∀ pn up size,
    (multipartLoop fuel pn up size).2 =
      cumFrom up ((multipartLoop fuel pn up size).1.map Prod.snd) := by
  induction fuel with
  | zero => intro pn up size; simp [multipartLoop, cumFrom]
  | succ fuel ih =>
    intro pn up size
    by_cases h0 : size = 0
    · subst h0; simp [multipartLoop, cumFrom]
    · simp only [multipartLoop, if_neg h0, List.map_cons, cumFrom]
      exact congrArg ((up + min CHUNK_SIZE size) :: ·) (ih (pn + 1) _ _)

/-- numParts iterations of the read loop cover the whole file. -/
theorem le_numParts_mul (size : Nat) : size ≤ numParts size * CHUNK_SIZE := by
  simp only [numParts, CHUNK_SIZE]
  omega

/-! Claim theorems. -/

/-- C1: Database.get_file_by_download_link returns the joined file and link
rows exactly while the link is eligible, that is (no expiration timestamp
or the expiration lies strictly in the future) and (max_access is the
unlimited sentinel -1 or access_count < max_access), and returns none
otherwise; a link with max_access = 1 resolves once and, after
increment_link_access raises access_count to 1, resolves to none; a link
past its expiration resolves to none even with access_count 0. -/
theorem C1_resolve_download_link :
    (∀ (db : Database) (now : Nat) (lid : String) (dl : DownloadLink) (f : FileRecord),
      db.download_links.find? (fun l => l.link_id == lid) = some dl →
      db.files.find? (fun g => g.file_id == dl.file_id) = some f →
      (db.get_file_by_download_link now lid = some (f, dl) ↔ dl.eligible now = true) ∧
      (dl.eligible now = false → db.get_file_by_download_link now lid = none)) ∧
    (∀ (db : Database) (now after : Nat) (lid : String) (dl : DownloadLink) (f : FileRecord),
      db.download_links.find? (fun l => l.link_id == lid) = some dl →
      db.files.find? (fun g => g.file_id == dl.file_id) = some f →
      dl.max_access = 1 → dl.access_count = 0 →
      (∀ t, dl.expires_at = some t → now < t) →
      db.get_file_by_download_link now lid = some (f, dl) ∧
      (db.increment_link_access lid).get_file_by_download_link after lid = none) ∧
    (∀ (db : Database) (now : Nat) (lid : String) (dl : DownloadLink) (t : Nat),
      db.download_links.find? (fun l => l.link_id == lid) = some dl →
      dl.expires_at = some t → t ≤ now →
      db.get_file_by_download_link now lid = none) := by
  refine ⟨?_, ?_, ?_⟩
  · intro db now lid dl f hdl hf
    simp only [Database.get_file_by_download_link, hdl, hf]
    cases he : dl.eligible now <;> simp
  · intro db now after lid dl f hdl hf hmax hacc hexp
    have hacc2 : (dl.max_access == -1 || decide ((dl.access_count : Int) < dl.max_access))
        = true := by rw [hmax, hacc]; decide
    have he : dl.eligible now = true := by
      unfold DownloadLink.eligible
      cases hx : dl.expires_at with
      | none => simp [hacc2]
      | some t =>
        have hlt := hexp t hx
        simp [hacc2, hlt]
    constructor
    · simp only [Database.get_file_by_download_link, hdl, hf, he]
      rfl
    · have hdl2 : (db.increment_link_access lid).download_links.find?
          (fun l => l.link_id == lid)
          = some { dl with access_count := dl.access_count + 1 } := by
        simp only [Database.increment_link_access]
        rw [find?_increment_link, hdl]
        rfl
      have he2 : ({ dl with access_count := dl.access_count + 1 } : DownloadLink).eligible
          after = false := by
        unfold DownloadLink.eligible
        simp only
        rw [hmax, hacc]
        simp
      simp only [Database.get_file_by_download_link, hdl2, hf, he2]
      split <;> rfl
  · intro db now lid dl t hdl hx hle
    have hnlt : ¬ (now < t) := by omega
    have he : dl.eligible now = false := by
      unfold DownloadLink.eligible
      rw [hx]
      simp [decide_eq_false hnlt]
    simp only [Database.get_file_by_download_link, hdl, he]
    cases hf : db.files.find? (fun g => g.file_id == dl.file_id) with
    | none => rfl
    | some f => rfl

/-- Witness for C1 at the sample database: the one-shot link resolves at
time 5, no longer resolves after the access increment, and the expired
link does not resolve at time 5 despite access_count 0. -/
theorem C1_resolve_download_link_witness :
    sampleDb.get_file_by_download_link 5 "L1" = some (sampleVideoFile, sampleOneShotLink) ∧
    (sampleDb.increment_link_access "L1").get_file_by_download_link 9 "L1" = none ∧
    sampleDb.get_file_by_download_link 5 "L2" = none := by
  have h2 := C1_resolve_download_link.2.1 sampleDb 5 9 "L1" sampleOneShotLink sampleVideoFile
    (by decide) (by decide) (by decide) (by decide)
    (fun t ht => by simp [sampleOneShotLink] at ht)
  have h3 := C1_resolve_download_link.2.2 sampleDb 5 "L2" sampleExpiredLink 4
    (by decide) (by decide) (by decide)
  exact ⟨h2.1, h2.2, h3⟩

/-- C2: upload_file picks the single-shot path for sizes up to 100 MiB and
the multipart path strictly above; the multipart loop uploads parts with
consecutive 1-based part numbers, chunks of exactly 100 MiB except a
possibly smaller final chunk, totalling the file size, with progress
reports equal to the running cumulative byte counts; a 250 MiB file
yields exactly parts of 100, 100 and 50 MiB. -/
theorem C2_upload_strategy_and_chunking :
    (∀ size : Nat,
      (size ≤ 100 * 1024 * 1024 → WasabiStorage.choose_strategy size = .single) ∧
      (100 * 1024 * 1024 < size → WasabiStorage.choose_strategy size = .multipart)) ∧
    (∀ size : Nat,
      (WasabiStorage.multipart_upload size).1.map Prod.fst =
        List.range' 1 (WasabiStorage.multipart_upload size).1.length ∧
      ((WasabiStorage.multipart_upload size).1.map Prod.snd).sum = size ∧
      (∀ pc ∈ (WasabiStorage.multipart_upload size).1, 1 ≤ pc.2 ∧ pc.2 ≤ CHUNK_SIZE) ∧
      (∀ pc ∈ (WasabiStorage.multipart_upload size).1.dropLast, pc.2 = CHUNK_SIZE) ∧
      (WasabiStorage.multipart_upload size).2 =
        cumFrom 0 ((WasabiStorage.multipart_upload size).1.map Prod.snd)) ∧
    WasabiStorage.multipart_upload (250 * 1024 * 1024) =
      ([(1, 100 * 1024 * 1024), (2, 100 * 1024 * 1024), (3, 50 * 1024 * 1024)],
       [100 * 1024 * 1024, 200 * 1024 * 1024, 250 * 1024 * 1024]) := by
  refine ⟨?_, ?_, by decide⟩
  · intro size
    constructor
    · intro h
      unfold WasabiStorage.choose_strategy
      rw [if_neg (by omega)]
    · intro h
      unfold WasabiStorage.choose_strategy
      rw [if_pos (by omega)]
  · intro size
    exact ⟨multipartLoop_map_fst _ _ _ _,
      multipartLoop_sum _ _ _ _ (le_numParts_mul size),
      fun pc hm => multipartLoop_snd_bounds _ _ _ _ pc hm,
      fun pc hm => multipartLoop_dropLast_chunk _ _ _ _ pc hm,
      multipartLoop_reports _ _ _ _⟩

/-- Witness for C2: the strategy choice at the 100 MiB boundary and just
above it, and the chunk bounds at the first part of a 250 MiB upload. -/
theorem C2_upload_strategy_and_chunking_witness :
    WasabiStorage.choose_strategy (100 * 1024 * 1024) = .single ∧
    WasabiStorage.choose_strategy (100 * 1024 * 1024 + 1) = .multipart ∧
    (1 ≤ ((1, 100 * 1024 * 1024) : Nat × Nat).2 ∧
      ((1, 100 * 1024 * 1024) : Nat × Nat).2 ≤ CHUNK_SIZE) := by
  refine ⟨(C2_upload_strategy_and_chunking.1 _).1 (by norm_num),
    (C2_upload_strategy_and_chunking.1 _).2 (by norm_num),
    (C2_upload_strategy_and_chunking.2.1 (250 * 1024 * 1024)).2.2.1
      (1, 100 * 1024 * 1024) (by decide)⟩

/-- C3: any failure during transfer makes upload_file return false instead
of raising; an in-progress multipart session (create succeeded) is
aborted as the last store call before the failure propagates; and the
save_file database write happens only in runs where upload_file returned
true. -/
theorem C3_failure_contained_and_abort :
    ∀ (fails : StoreEv → Bool) (size : Nat),
      (100 * 1024 * 1024 < size → ∀ tr,
        WasabiStorage.multipart_upload_run fails size = .error tr →
        WasabiStorage.upload_file_run fails size = (false, tr)) ∧
      (∀ tr, WasabiStorage.multipart_upload_run fails size = .error tr →
        fails .createMultipart = false →
        tr.getLast? = some .abortMultipart ∧ StoreEv.createMultipart ∈ tr) ∧
      (size ≤ 100 * 1024 * 1024 → fails .putObject = true →
        WasabiStorage.upload_file_run fails size = (false, [.putObject])) ∧
      ((TelegramFileBot.process_file_upload_run fails size).1 = false →
        BotEv.save_file_row ∉ (TelegramFileBot.process_file_upload_run fails size).2) ∧
      (BotEv.save_file_row ∈ (TelegramFileBot.process_file_upload_run fails size).2 →
        (TelegramFileBot.process_file_upload_run fails size).1 = true) := by
  intro fails size
  refine ⟨?_, ?_, ?_, ?_, ?_⟩
  · intro hsz tr herr
    unfold WasabiStorage.upload_file_run
    rw [if_pos hsz, herr]
  · intro tr herr hcreate
    unfold WasabiStorage.multipart_upload_run at herr
    rw [hcreate] at herr
    simp only [Bool.false_eq_true, if_false] at herr
    cases hp : partLoopRun fails (numParts size) 1 size with
    | error tr0 =>
      rw [hp] at herr
      simp only [Except.error.injEq] at herr
      subst herr
      constructor
      · rw [show StoreEv.createMultipart :: tr0 ++ [StoreEv.abortMultipart]
            = (StoreEv.createMultipart :: tr0) ++ [StoreEv.abortMultipart] from rfl]
        exact List.getLast?_concat _
      · exact List.mem_cons_self _ _
    | ok tr0 =>
      rw [hp] at herr
      cases hc : fails .completeMultipart with
      | true =>
        rw [hc] at herr
        simp only [if_true, Except.error.injEq] at herr
        subst herr
        constructor
        · rw [show StoreEv.createMultipart :: tr0
              ++ [StoreEv.completeMultipart, StoreEv.abortMultipart]
              = ((StoreEv.createMultipart :: tr0) ++ [StoreEv.completeMultipart])
                ++ [StoreEv.abortMultipart] from by simp]
          exact List.getLast?_concat _
        · exact List.mem_cons_self _ _
      | false =>
        rw [hc] at herr
        simp at herr
  · intro hsz hput
    unfold WasabiStorage.upload_file_run
    rw [if_neg (by omega), if_pos hput]
  · intro hfail hmem
    unfold TelegramFileBot.process_file_upload_run at hfail hmem
    simp only at hfail hmem
    rw [hfail] at hmem
    simp only [Bool.false_eq_true, if_false, List.append_nil, List.mem_map] at hmem
    rcases hmem with ⟨e, _, he⟩
    exact BotEv.noConfusion he
  · intro hmem
    unfold TelegramFileBot.process_file_upload_run at hmem ⊢
    simp only at hmem ⊢
    cases hr : (WasabiStorage.upload_file_run fails size).1 with
    | true => rfl
    | false =>
      rw [hr] at hmem
      simp only [Bool.false_eq_true, if_false, List.append_nil, List.mem_map] at hmem
      rcases hmem with ⟨e, _, he⟩
      exact BotEv.noConfusion he

/-- Witness for C3: under the oracle that fails the second part upload, a
250 MiB upload returns false with a trace whose last store call is the
multipart abort, and no save_file write occurs. -/
theorem C3_failure_contained_and_abort_witness :
    WasabiStorage.upload_file_run failsPartTwo (250 * 1024 * 1024) =
      (false, [.createMultipart, .uploadPart 1, .uploadPart 2, .abortMultipart]) ∧
    [StoreEv.createMultipart, .uploadPart 1, .uploadPart 2, .abortMultipart].getLast?
      = some .abortMultipart ∧
    BotEv.save_file_row ∉
      (TelegramFileBot.process_file_upload_run failsPartTwo (250 * 1024 * 1024)).2 := by
  have h := C3_failure_contained_and_abort failsPartTwo (250 * 1024 * 1024)
  have herr : WasabiStorage.multipart_upload_run failsPartTwo (250 * 1024 * 1024) =
      .error [.createMultipart, .uploadPart 1, .uploadPart 2, .abortMultipart] := by rfl
  refine ⟨h.1 (by norm_num) _ herr, (h.2.1 _ herr (by decide)).1, h.2.2.2.1 ?_⟩
  have h1 := h.1 (by norm_num) _ herr
  unfold TelegramFileBot.process_file_upload_run
  rw [h1]

/-- C4: generate_download_link returns NotFound when no record exists,
Denied exactly when the requester is not the uploader and the file is not
public, and otherwise a presigned URL together with the download-count
increment as a side effect; a public file yields a URL for every
requester. -/
theorem C4_download_link_authorization :
    ∀ (db : Database) (req : Int) (fid : String),
      (db.get_file fid = none →
        TelegramFileBot.generate_download_link db req fid = (.notFound, db)) ∧
      (∀ f, db.get_file fid = some f →
        ((f.uploader_id ≠ req ∧ f.is_public = false) →
          TelegramFileBot.generate_download_link db req fid = (.denied, db)) ∧
        ((f.uploader_id = req ∨ f.is_public = true) →
          TelegramFileBot.generate_download_link db req fid =
            (.url (WasabiStorage.generate_presigned_url f.wasabi_key 3600
              (some ("attachment; filename=\"" ++ f.original_name ++ "\""))),
             db.increment_download_count fid) ∧
          (db.increment_download_count fid).get_file fid =
            some { f with download_count := f.download_count + 1 }) ∧
        (f.is_public = true →
          ∃ u, (TelegramFileBot.generate_download_link db req fid).1 = .url u)) := by
  intro db req fid
  constructor
  · intro h
    simp only [TelegramFileBot.generate_download_link, h]
  · intro f hf
    have hinc : (db.increment_download_count fid).get_file fid =
        some { f with download_count := f.download_count + 1 } := by
      simp only [Database.increment_download_count, Database.get_file]
      rw [find?_increment_file,
        show db.files.find? (fun g => g.file_id == fid) = some f from hf]
      rfl
    refine ⟨?_, ?_, ?_⟩
    · intro h
      have hb : (f.uploader_id != req && !f.is_public) = true := by
        simp [bne_iff_ne, h.1, h.2]
      simp only [TelegramFileBot.generate_download_link, hf, hb]
      rfl
    · intro h
      have hb : (f.uploader_id != req && !f.is_public) = false := by
        rcases h with h | h <;> simp [h]
      simp only [TelegramFileBot.generate_download_link, hf, hb]
      exact ⟨rfl, hinc⟩
    · intro hpub
      have hb : (f.uploader_id != req && !f.is_public) = false := by simp [hpub]
      simp only [TelegramFileBot.generate_download_link, hf, hb]
      exact ⟨_, rfl⟩

/-- Witness for C4: a missing id gives NotFound, a private file of another
user gives Denied, and a public file gives the presigned URL plus the
incremented download count, all on the sample database with requester 99. -/
theorem C4_download_link_authorization_witness :
    TelegramFileBot.generate_download_link sampleDb 99 "nope" = (.notFound, sampleDb) ∧
    TelegramFileBot.generate_download_link sampleDb 99 "f2" = (.denied, sampleDb) ∧
    TelegramFileBot.generate_download_link sampleDb 99 "f1" =
      (.url (WasabiStorage.generate_presigned_url sampleVideoFile.wasabi_key 3600
        (some ("attachment; filename=\"" ++ sampleVideoFile.original_name ++ "\""))),
       sampleDb.increment_download_count "f1") ∧
    (sampleDb.increment_download_count "f1").get_file "f1" =
      some { sampleVideoFile with download_count := sampleVideoFile.download_count + 1 } := by
  have h1 := (C4_download_link_authorization sampleDb 99 "nope").1 (by decide)
  have h2 := ((C4_download_link_authorization sampleDb 99 "f2").2 samplePrivateFile
    (by decide)).1 (by decide)
  have h3 := ((C4_download_link_authorization sampleDb 99 "f1").2 sampleVideoFile
    (by decide)).2.1 (Or.inr (by decide))
  exact ⟨h1, h2, h3.1, h3.2⟩

/-- C6: the streaming, MX Player and VLC link handlers check only that the
file record exists (and, for streaming, its MIME type); a requester who
is not the uploader of a non-public file is denied the download link yet
still obtains the player URLs from the file id alone. -/
theorem C6_player_links_no_authorization :
    ∀ (db : Database) (fid : String) (f : FileRecord) (requester : Int),
      db.get_file fid = some f →
      f.uploader_id ≠ requester → f.is_public = false →
      (TelegramFileBot.generate_download_link db requester fid).1 = .denied ∧
      TelegramFileBot.generate_mx_link db fid =
        .url (WasabiStorage.get_mx_player_url f.wasabi_key f.original_name) ∧
      TelegramFileBot.generate_vlc_link db fid =
        .url (WasabiStorage.get_vlc_url f.wasabi_key) ∧
      (streamable_mime f.mime_type = true →
        TelegramFileBot.generate_streaming_link db fid =
          .url (WasabiStorage.generate_streaming_url f.wasabi_key 86400)) := by
  intro db fid f requester hf hne hpriv
  have hb : (f.uploader_id != requester && !f.is_public) = true := by
    simp [bne_iff_ne, hne, hpriv]
  refine ⟨?_, ?_, ?_, ?_⟩
  · simp only [TelegramFileBot.generate_download_link, hf, hb]
    rfl
  · simp only [TelegramFileBot.generate_mx_link, hf]
  · simp only [TelegramFileBot.generate_vlc_link, hf]
  · intro hs
    simp only [TelegramFileBot.generate_streaming_link, hf, hs]
    rfl

/-- Witness for C6: requester 99 is denied the download of the private file
f2 but still receives its MX, VLC and streaming URLs. -/
theorem C6_player_links_no_authorization_witness :
    (TelegramFileBot.generate_download_link sampleDb 99 "f2").1 = .denied ∧
    TelegramFileBot.generate_mx_link sampleDb "f2" =
      .url (WasabiStorage.get_mx_player_url samplePrivateFile.wasabi_key
        samplePrivateFile.original_name) ∧
    TelegramFileBot.generate_vlc_link sampleDb "f2" =
      .url (WasabiStorage.get_vlc_url samplePrivateFile.wasabi_key) ∧
    TelegramFileBot.generate_streaming_link sampleDb "f2" =
      .url (WasabiStorage.generate_streaming_url samplePrivateFile.wasabi_key 86400) := by
  have h := C6_player_links_no_authorization sampleDb "f2" samplePrivateFile 99
    (by decide) (by decide) (by decide)
  exact ⟨h.1, h.2.1, h.2.2.1, h.2.2.2 (by decide)⟩

/-- The negation of the streamability guard, phrased the way the spec words
it: the MIME type is absent or starts with neither video/ nor audio/. -/
theorem streamable_mime_eq_false_iff (m : Option String) :
    streamable_mime m = false ↔
      (m = none ∨ ∃ s, m = some s ∧ pyStartswith s "video/" = false
        ∧ pyStartswith s "audio/" = false) := by
  cases m with
  | none => simp [streamable_mime]
  | some s =>
    simp only [streamable_mime]
    constructor
    · intro h
      by_cases hemp : s.data.isEmpty = true
      · have hnil : s.data = [] := by simpa using hemp
        have h1 : pyStartswith s "video/" = false := by
          simp only [pyStartswith, hnil]
          decide
        have h2 : pyStartswith s "audio/" = false := by
          simp only [pyStartswith, hnil]
          decide
        exact Or.inr ⟨s, rfl, h1, h2⟩
      · have hne : (!s.data.isEmpty) = true := by
          cases hie : s.data.isEmpty
          · rfl
          · exact absurd hie hemp
        rw [hne, Bool.true_and] at h
        rcases Bool.or_eq_false_iff.mp h with ⟨hv, ha⟩
        exact Or.inr ⟨s, rfl, hv, ha⟩
    · intro h
      rcases h with h | ⟨s2, hs2, hv, ha⟩
      · exact Option.noConfusion h
      · cases hs2
        simp [hv, ha]

/-- C8: with the record present, generate_streaming_link returns
NotStreamable exactly when the stored MIME type is absent or starts with
neither video/ nor audio/, and otherwise returns the streaming URL; in
particular application/pdf is rejected and video/mp4 yields a URL. -/
theorem C8_streaming_link_mime_gate :
    ∀ (db : Database) (fid : String) (f : FileRecord),
      db.get_file fid = some f →
      (TelegramFileBot.generate_streaming_link db fid = .notStreamable ↔
        (f.mime_type = none ∨ ∃ s, f.mime_type = some s ∧
          pyStartswith s "video/" = false ∧ pyStartswith s "audio/" = false)) ∧
      (∀ s, f.mime_type = some s →
        (pyStartswith s "video/" = true ∨ pyStartswith s "audio/" = true) →
        TelegramFileBot.generate_streaming_link db fid =
          .url (WasabiStorage.generate_streaming_url f.wasabi_key 86400)) ∧
      (f.mime_type = some "application/pdf" →
        TelegramFileBot.generate_streaming_link db fid = .notStreamable) ∧
      (f.mime_type = some "video/mp4" →
        TelegramFileBot.generate_streaming_link db fid =
          .url (WasabiStorage.generate_streaming_url f.wasabi_key 86400)) := by
  intro db fid f hf
  have hlink : ∀ b, streamable_mime f.mime_type = b →
      TelegramFileBot.generate_streaming_link db fid =
        (if b then .url (WasabiStorage.generate_streaming_url f.wasabi_key 86400)
         else .notStreamable) := by
    intro b hb
    simp only [TelegramFileBot.generate_streaming_link, hf, hb]
  refine ⟨?_, ?_, ?_, ?_⟩
  · cases hb : streamable_mime f.mime_type with
    | false =>
      rw [hlink false hb]
      exact iff_of_true rfl ((streamable_mime_eq_false_iff f.mime_type).mp hb)
    | true =>
      rw [hlink true hb]
      constructor
      · intro hc
        exact absurd hc (by simp)
      · intro hc
        have h2 := (streamable_mime_eq_false_iff f.mime_type).mpr hc
        rw [hb] at h2
        exact absurd h2 (by simp)
  · intro s hs hsw
    have hne : (!s.data.isEmpty) = true := by
      cases hie : s.data.isEmpty
      · rfl
      · have hnil : s.data = [] := by simpa using hie
        rcases hsw with h | h <;>
          (simp only [pyStartswith, hnil] at h
           exact absurd h (by decide))
    have hb : streamable_mime f.mime_type = true := by
      rw [hs]
      simp only [streamable_mime, hne, Bool.true_and]
      rcases hsw with h | h <;> simp [h]
    rw [hlink true hb]
    rfl
  · intro hs
    have hb : streamable_mime f.mime_type = false := by rw [hs]; decide
    rw [hlink false hb]
    rfl
  · intro hs
    have hb : streamable_mime f.mime_type = true := by rw [hs]; decide
    rw [hlink true hb]
    rfl

/-- Witness for C8: on the sample database the PDF file is NotStreamable
and the MP4 file streams. -/
theorem C8_streaming_link_mime_gate_witness :
    TelegramFileBot.generate_streaming_link sampleDb "f3" = .notStreamable ∧
    TelegramFileBot.generate_streaming_link sampleDb "f1" =
      .url (WasabiStorage.generate_streaming_url sampleVideoFile.wasabi_key 86400) := by
  have h3 := (C8_streaming_link_mime_gate sampleDb "f3" samplePdfFile (by decide)).2.2.1
    (by decide)
  have h1 := (C8_streaming_link_mime_gate sampleDb "f1" sampleVideoFile (by decide)).2.2.2
    (by decide)
  exact ⟨h3, h1⟩

/-- C5: evaluation of the process_file_upload control-flow skeleton on its
exit paths. The success reply and the upload-returned-false reply paths
remove the temporary file, but every exception path (a failing download
or a failing save_file after a successful upload) sends the error reply
with the temporary file still on disk, because os.unlink sits inside the
try block instead of a finally block. -/
theorem C5_temp_file_exit_paths :
    TelegramFileBot.process_file_upload_exit false true false =
      { reply := .success, temp_file_exists := false } ∧
    TelegramFileBot.process_file_upload_exit false false false =
      { reply := .failed, temp_file_exists := false } ∧
    TelegramFileBot.process_file_upload_exit false true true =
      { reply := .uploadError, temp_file_exists := true } ∧
    TelegramFileBot.process_file_upload_exit true false false =
      { reply := .uploadError, temp_file_exists := true } := by
  decide

/-- C7 counterexample: the claim as stated fails at two explicit concrete
inputs. First, with two matching public records and limit 1, search_files
returns only one record, not the exact set of matching records. Second,
with caller identity 0 (Python-falsy, so the code takes the anonymous
branch) a private record uploaded by identity 0 satisfies the claimed
filter (caller is the uploader) yet is not returned even with a generous
limit. -/
theorem C7_search_exactness_counterexample :
    (¬ (∀ (db : Database) (query : String) (user_id : Option Int) (limit : Nat)
        (r : FileRecord),
        r ∈ db.search_files query user_id limit ↔
          (r ∈ db.files ∧ spec_search_eligible query user_id r = true))) ∧
    (c7FileOld ∈ c7Db.files ∧ spec_search_eligible "a" none c7FileOld = true ∧
      c7FileOld ∉ c7Db.search_files "a" none 1) ∧
    (c7ZeroFile ∈ c7ZeroDb.files ∧
      spec_search_eligible "a" (some 0) c7ZeroFile = true ∧
      c7ZeroFile ∉ c7ZeroDb.search_files "a" (some 0) 5) := by
  refine ⟨?_, ⟨by decide, by decide, by decide⟩, ⟨by decide, by decide, by decide⟩⟩
  intro h
  have h2 := (h c7Db "a" none 1 c7FileOld).mpr (by decide)
  exact absurd h2 (by decide)

/-- C7 amended: every returned record is a stored record satisfying the
search filter (uploader-or-public with a truthy caller identity, public
otherwise, and name-contains-query case-insensitively or query equals a
tag); the result is the first `limit` records of a newest-upload-first
arrangement of exactly the matching records, and is itself ordered
newest-first; whenever all matching records fit within the limit the
result is exactly the matching records up to order; a caller identity of
0 is treated like an absent identity, so only public records are
eligible then; with no caller identity every returned record is public;
and the code filter agrees with the filter as the spec words it for
every caller identity other than the Python-falsy 0. -/
theorem C7_search_filter_characterization :
    ∀ (db : Database) (query : String) (user_id : Option Int) (limit : Nat),
      (∀ r ∈ db.search_files query user_id limit,
        r ∈ db.files ∧ search_eligible query user_id r = true) ∧
      (∃ allMatches : List FileRecord,
        allMatches.Perm (db.files.filter (search_eligible query user_id)) ∧
        allMatches.Pairwise (fun a b => b.upload_date ≤ a.upload_date) ∧
        db.search_files query user_id limit = allMatches.take limit) ∧
      (db.search_files query user_id limit).Pairwise
        (fun a b => b.upload_date ≤ a.upload_date) ∧
      ((db.files.filter (search_eligible query user_id)).length ≤ limit →
        (db.search_files query user_id limit).Perm
          (db.files.filter (search_eligible query user_id))) ∧
      (db.search_files query (some 0) limit = db.search_files query none limit) ∧
      (∀ f, search_eligible query (some 0) f
        = (f.is_public && fileMatchesQuery query f)) ∧
      (user_id = none → ∀ r ∈ db.search_files query user_id limit,
        r.is_public = true) ∧
      (∀ u f, u ≠ 0 →
        search_eligible query (some u) f = spec_search_eligible query (some u) f) ∧
      (∀ f, search_eligible query none f = spec_search_eligible query none f) := by
  intro db query user_id limit
  have hmem : ∀ r ∈ db.search_files query user_id limit,
      r ∈ db.files.filter (search_eligible query user_id) := by
    intro r hr
    have h1 : r ∈ sortByDateDesc (db.files.filter (search_eligible query user_id)) :=
      List.mem_of_mem_take hr
    exact (sortByDateDesc_perm _).mem_iff.mp h1
  refine ⟨?_, ?_, ?_, ?_, ?_, ?_, ?_, ?_, ?_⟩
  · intro r hr
    have h2 := hmem r hr
    exact ⟨List.mem_of_mem_filter h2, List.of_mem_filter h2⟩
  · exact ⟨sortByDateDesc (db.files.filter (search_eligible query user_id)),
      sortByDateDesc_perm _, sortByDateDesc_pairwise _, rfl⟩
  · exact List.Pairwise.sublist (List.take_sublist _ _) (sortByDateDesc_pairwise _)
  · intro hlen
    have hslen : (sortByDateDesc (db.files.filter (search_eligible query user_id))).length
        = (db.files.filter (search_eligible query user_id)).length :=
      (sortByDateDesc_perm _).length_eq
    have htake : db.search_files query user_id limit
        = sortByDateDesc (db.files.filter (search_eligible query user_id)) := by
      unfold Database.search_files
      exact List.take_of_length_le (by omega)
    rw [htake]
    exact sortByDateDesc_perm _
  · rfl
  · intro f
    rfl
  · intro hnone r hr
    have h2 := List.of_mem_filter (hmem r hr)
    rw [hnone] at h2
    simp only [search_eligible, userIdTruthy, if_false, Bool.and_eq_true] at h2
    exact h2.1
  · intro u f hu
    simp only [search_eligible, spec_search_eligible, userIdTruthy]
    have hbu : (u != 0) = true := bne_iff_ne.mpr hu
    simp only [hbu]
    rfl
  · intro f
    rfl

/-- Witness for C7 amended: with limit 5 the search on the sample two-file
database returns exactly the matching records up to order, and with no
caller identity every record returned there is public. -/
theorem C7_search_filter_characterization_witness :
    (c7Db.search_files "a" none 5).Perm
      (c7Db.files.filter (search_eligible "a" none)) ∧
    (∀ r ∈ c7Db.search_files "a" none 5, r.is_public = true) :=
  ⟨(C7_search_filter_characterization c7Db "a" none 5).2.2.2.1 (by decide),
   (C7_search_filter_characterization c7Db "a" none 5).2.2.2.2.2.2.1 rfl⟩

/-- C9: save_file always persists the inserted row with is_public true (the
INSERT omits the column, so the schema default applies); the other
modelled operations never change any is_public value; and on a database
whose rows are all public, generate_download_link never returns Denied,
for any requester. -/
theorem C9_uploaded_records_public :
    (∀ (db : Database) (now : Nat) (d : FileData) (r : FileRecord),
      r ∈ (Database.save_file db now d).1.files → r ∈ db.files ∨ r.is_public = true) ∧
    (∀ (db : Database) (fid : String) (r : FileRecord),
      r ∈ (db.increment_download_count fid).files →
        ∃ r0 ∈ db.files, r.is_public = r0.is_public) ∧
    (∀ (db : Database) (lid : String), (db.increment_link_access lid).files = db.files) ∧
    (∀ (db : Database) (now : Nat) (d : UserData),
      (Database.save_user db now d).files = db.files) ∧
    (∀ (db : Database), (∀ r ∈ db.files, r.is_public = true) →
      ∀ (req : Int) (fid : String),
        (TelegramFileBot.generate_download_link db req fid).1 ≠ .denied) := by
  refine ⟨?_, ?_, ?_, ?_, ?_⟩
  · intro db now d r hr
    simp only [Database.save_file, List.mem_append, List.mem_singleton] at hr
    rcases hr with hr | hr
    · exact Or.inl hr
    · subst hr
      exact Or.inr rfl
  · intro db fid r hr
    simp only [Database.increment_download_count, List.mem_map] at hr
    rcases hr with ⟨r0, hr0, hx⟩
    refine ⟨r0, hr0, ?_⟩
    subst hx
    by_cases hc : (r0.file_id == fid) = true
    · rw [if_pos hc]
    · rw [if_neg hc]
  · intro db lid
    rfl
  · intro db now d
    unfold Database.save_user
    split <;> rfl
  · intro db hall req fid
    cases hf : db.get_file fid with
    | none =>
      simp only [TelegramFileBot.generate_download_link, hf]
      exact fun hc => AccessResult.noConfusion hc
    | some f =>
      have hpub : f.is_public = true := hall f (List.mem_of_find?_eq_some hf)
      have hb : (f.uploader_id != req && !f.is_public) = false := by simp [hpub]
      simp only [TelegramFileBot.generate_download_link, hf, hb]
      exact fun hc => AccessResult.noConfusion hc

/-- Witness for C9: on the all-public two-file database, requester 99 is
never denied, and a fresh save_file row is public. -/
theorem C9_uploaded_records_public_witness :
    (TelegramFileBot.generate_download_link c7Db 99 "s1").1 ≠ AccessResult.denied ∧
    ((Database.save_file c7Db 7 c9NewFileData).1.files.getLast?.map FileRecord.is_public
      = some true) := by
  constructor
  · exact C9_uploaded_records_public.2.2.2.2 c7Db (by decide) 99 "s1"
  · decide

/-- C10: save_user inserts a new row with the schema defaults when the
identity is fresh and, on conflict, updates only the display fields and
the last-active timestamp, leaving the premium flag, the storage
counters, the join time, and every other row untouched. -/
theorem C10_upsert_user_frame :
    ∀ (db : Database) (now : Nat) (d : UserData),
      (∀ u ∈ db.users, u.user_id = d.user_id →
        ∃ u2 ∈ (Database.save_user db now d).users,
          u2.user_id = u.user_id ∧ u2.username = d.username ∧
          u2.first_name = d.first_name ∧ u2.last_name = d.last_name ∧
          u2.last_active = now ∧
          u2.is_premium = u.is_premium ∧ u2.storage_used = u.storage_used ∧
          u2.storage_limit = u.storage_limit ∧ u2.joined_date = u.joined_date) ∧
      (∀ u ∈ db.users, u.user_id ≠ d.user_id → u ∈ (Database.save_user db now d).users) ∧
      ((∃ u ∈ db.users, u.user_id = d.user_id) →
        (Database.save_user db now d).users.length = db.users.length) ∧
      ((∀ u ∈ db.users, u.user_id ≠ d.user_id) →
        ∃ u2 ∈ (Database.save_user db now d).users,
          u2.user_id = d.user_id ∧ u2.username = d.username ∧
          u2.first_name = d.first_name ∧ u2.last_name = d.last_name ∧
          u2.is_premium = false ∧ u2.storage_used = 0 ∧
          u2.storage_limit = 2147483648 ∧ u2.joined_date = now ∧
          u2.last_active = now) := by
  intro db now d
  refine ⟨?_, ?_, ?_, ?_⟩
  · intro u hu hid
    have hany : db.users.any (fun v => v.user_id == d.user_id) = true :=
      List.any_eq_true.mpr ⟨u, hu, beq_iff_eq.mpr hid⟩
    have husers : (Database.save_user db now d).users
        = db.users.map (fun v =>
            if v.user_id == d.user_id then updatedUserRow d now v else v) := by
      simp [Database.save_user, hany]
    refine ⟨updatedUserRow d now u, ?_, rfl, rfl, rfl, rfl, rfl, rfl, rfl, rfl, rfl⟩
    rw [husers]
    exact List.mem_map.mpr ⟨u, hu,
      by rw [if_pos (show (u.user_id == d.user_id) = true from beq_iff_eq.mpr hid)]⟩
  · intro u hu hne
    have hbu : (u.user_id == d.user_id) = false := beq_eq_false_iff_ne.mpr hne
    cases hany : db.users.any (fun v => v.user_id == d.user_id) with
    | true =>
      have husers : (Database.save_user db now d).users
          = db.users.map (fun v =>
              if v.user_id == d.user_id then updatedUserRow d now v else v) := by
        simp [Database.save_user, hany]
      rw [husers]
      exact List.mem_map.mpr ⟨u, hu,
        by rw [if_neg (fun hc => Bool.false_ne_true (hbu ▸ hc))]⟩
    | false =>
      have husers : (Database.save_user db now d).users
          = db.users ++ [freshUserRow d now] := by
        simp [Database.save_user, hany]
      rw [husers]
      exact List.mem_append_left _ hu
  · intro hex
    rcases hex with ⟨u, hu, hid⟩
    have hany : db.users.any (fun v => v.user_id == d.user_id) = true :=
      List.any_eq_true.mpr ⟨u, hu, beq_iff_eq.mpr hid⟩
    have husers : (Database.save_user db now d).users
        = db.users.map (fun v =>
            if v.user_id == d.user_id then updatedUserRow d now v else v) := by
      simp [Database.save_user, hany]
    rw [husers, List.length_map]
  · intro hno
    have hany : db.users.any (fun v => v.user_id == d.user_id) = false := by
      cases hb : db.users.any (fun v => v.user_id == d.user_id) with
      | false => rfl
      | true =>
        rcases List.any_eq_true.mp hb with ⟨v, hv, hvb⟩
        exact absurd (beq_iff_eq.mp hvb) (hno v hv)
    have husers : (Database.save_user db now d).users
        = db.users ++ [freshUserRow d now] := by
      simp [Database.save_user, hany]
    refine ⟨freshUserRow d now, ?_, rfl, rfl, rfl, rfl, rfl, rfl, rfl, rfl, rfl⟩
    rw [husers]
    exact List.mem_append_right _ (List.mem_singleton_self _)

/-- Witness for C10: upserting identity 7 over the sample user row updates
the display fields and last-active time while keeping the premium flag,
both storage counters and the join time. -/
theorem C10_upsert_user_frame_witness :
    ∃ u2 ∈ (Database.save_user c10Db 9 c10Data).users,
      u2.user_id = c10User.user_id ∧ u2.username = c10Data.username ∧
      u2.first_name = c10Data.first_name ∧ u2.last_name = c10Data.last_name ∧
      u2.last_active = 9 ∧
      u2.is_premium = c10User.is_premium ∧ u2.storage_used = c10User.storage_used ∧
      u2.storage_limit = c10User.storage_limit ∧ u2.joined_date = c10User.joined_date :=
  (C10_upsert_user_frame c10Db 9 c10Data).1 c10User (by decide) (by decide)
